import Mathlib

/-!
Verification of the core of the DK NBA Best Ball Draft Assistant
(src/app_web_fixed.py; src/app_web.py is an earlier variant of the same
functions).  The pandas dataframe is embedded as a list of rows, Python
floats as exact rationals, IEEE NaN as `none` in `Option ℚ`, and the
Python `set` of drafted ids as a `Finset ℕ`.
-/

namespace DraftAssistant

/-- A raw uploaded row before `process_data` runs: every column may be
missing (`none` plays the role of pandas `NaN`).  The `ID` column is
absent from the upload, so `process_data` assigns ids by load order. -/
structure RawRow where
  name : Option String := none
  position : Option String := none
  team : Option String := none
  adp : Option ℚ := none
  finalAdjGPP : Option ℚ := none
  shutdownRisk : Option ℚ := none
  r2Mult : Option ℚ := none
  r3Mult : Option ℚ := none
  finalsMult : Option ℚ := none
  teamRank : Option ℚ := none
  r2Games : Option ℚ := none
  r3Games : Option ℚ := none
  finalsGames : Option ℚ := none
deriving Repr, DecidableEq

/-- A processed player row after `process_data` (app_web_fixed.py lines
51-113).  Field defaults only ease the construction of concrete test
fixtures; `process_data` sets every field explicitly. -/
structure Player where
  id : ℕ := 0
  name : String := ""
  position : String := ""
  team : String := ""
  adp : ℚ := 999
  finalAdjGPP : ℚ := 0
  shutdownRisk : ℚ := 1/2
  r2Mult : ℚ := 1
  r3Mult : ℚ := 1
  finalsMult : ℚ := 1
  teamRank : ℚ := 15
  r2Games : ℚ := 3
  r3Games : ℚ := 3
  finalsGames : ℚ := 3
  finalRank : ℤ := 0
  adpRank : ℤ := 0
  valueScore : ℤ := 0
  zFinal : Option ℚ := some 0
  zADP : Option ℚ := some 0
  valueZ : Option ℚ := some 0
  valueAlert : Bool := false
  liveScore : ℚ := 0
deriving Repr, DecidableEq

/-- pandas `Series.rank(ascending=False, method='min')` (line 96): a value's
rank is 1 plus the number of strictly larger values in the column. -/
def rankDesc (xs : List ℚ) (x : ℚ) : ℤ :=
  1 + ((xs.filter (fun y => x < y)).length : ℤ)

/-- pandas `Series.rank(ascending=True, method='min')` (line 97): a value's
rank is 1 plus the number of strictly smaller values in the column. -/
def rankAsc (xs : List ℚ) (x : ℚ) : ℤ :=
  1 + ((xs.filter (fun y => y < x)).length : ℤ)

/-- Population mean of a column, as used by `scipy.stats.zscore`. -/
def popMean (xs : List ℚ) : ℚ := xs.sum / xs.length

/-- Population variance (ddof=0, divide by N) of a column. -/
def popVar (xs : List ℚ) : ℚ :=
  (xs.map (fun x => (x - popMean xs) ^ 2)).sum / xs.length

/-- `scipy.stats.zscore` (lines 102-103).  On a zero-variance column the
standard deviation is 0 and the IEEE division 0/0 produces NaN for every
entry (scipy emits a runtime warning, it does not raise), modelled as
`none`.  Otherwise each entry is (x - mean)/std; `Rat.sqrt` stands in for
the IEEE square root and agrees with it exactly whenever the variance is
a rational square, which covers every input any theorem below evaluates. -/
def zscoreFloat (xs : List ℚ) : List (Option ℚ) :=
  if popVar xs = 0 then xs.map (fun _ => none)
  else xs.map (fun x => some ((x - popMean xs) / Rat.sqrt (popVar xs)))

/-- IEEE float subtraction with NaN propagation (`ValueZ` at line 104). -/
def subNaN : Option ℚ → Option ℚ → Option ℚ
  | some a, some b => some (a - b)
  | _, _ => none

/-- IEEE float comparison `q <= x` where `x` may be NaN: any comparison
with NaN is false in numpy (`ValueAlert` at line 111). -/
def geNaN (q : ℚ) : Option ℚ → Bool
  | some x => decide (q ≤ x)
  | none => false

/-- The fill value for missing ADP entries (lines 62-65): the maximum of
the observed ADP values — 999 when every entry is missing, because pandas
`max()` skips NaN and returns NaN on an all-NaN column — plus 100. -/
def adp_fill_value (adps : List (Option ℚ)) : ℚ :=
  ((adps.filterMap id).max?).getD 999 + 100

/-- Columnwise `df['ADP'].fillna(max_adp + 100)` (lines 60-65). -/
def fill_missing_adp (adps : List (Option ℚ)) : List ℚ :=
  adps.map (fun a => a.getD (adp_fill_value adps))

/-- Row admission (lines 88-93): a row is kept when `Name`, `Position`
and `Team` are present and `FinalAdjGPP` is present and positive.  (The
`dropna` on `FinalAdjGPP` is vacuous because line 86 has just filled that
column with the default 0; such rows are then dropped by the `> 0`
filter, so the net admission condition is `0 < final_adj_gpp.getD 0`.) -/
def admitted (r : RawRow) : Prop :=
  r.name.isSome ∧ r.position.isSome ∧ r.team.isSome ∧ 0 < r.finalAdjGPP.getD 0

instance (r : RawRow) : Decidable (admitted r) := by
  unfold admitted; infer_instance

/-- One row of the cleaning phase of `process_data` (lines 56-93): the id
is the row's position in load order, missing numeric columns receive the
`required_cols` defaults of lines 68-79, missing ADP receives the shared
fill value, and rows failing admission are dropped (`none`). -/
def mk_player (fillv : ℚ) (ir : ℕ × RawRow) : Option Player :=
  match ir.2.name, ir.2.position, ir.2.team with
  | some nm, some pos, some tm =>
    let gpp := ir.2.finalAdjGPP.getD 0
    if 0 < gpp then
      some { id := ir.1, name := nm, position := pos, team := tm,
             adp := ir.2.adp.getD fillv,
             finalAdjGPP := gpp,
             shutdownRisk := ir.2.shutdownRisk.getD (1/2),
             r2Mult := ir.2.r2Mult.getD 1,
             r3Mult := ir.2.r3Mult.getD 1,
             finalsMult := ir.2.finalsMult.getD 1,
             teamRank := ir.2.teamRank.getD 15,
             r2Games := ir.2.r2Games.getD 3,
             r3Games := ir.2.r3Games.getD 3,
             finalsGames := ir.2.finalsGames.getD 3 }
    else none
  | _, _, _ => none

/-- The cleaning phase of `process_data` (lines 56-93): ids are assigned
by position in load order BEFORE any row is dropped (line 58 runs first),
missing ADP is filled with `adp_fill_value` (the columnwise
`fill_missing_adp` applied row by row), the other numeric columns get
their defaults, and non-admitted rows are dropped. -/
def clean_rows (df : List RawRow) : List Player :=
  ((List.range df.length).zip df).filterMap
    (mk_player (adp_fill_value (df.map RawRow.adp)))

/-- The ranking phase of `process_data` (lines 96-98), computed over the
cleaned frame: `FinalAdjGPP_Rank`, `ADP_Rank` and their difference
`ValueScore`. -/
def add_ranks (base : List Player) : List Player :=
  base.map (fun p => { p with
    finalRank := rankDesc (base.map Player.finalAdjGPP) p.finalAdjGPP,
    adpRank := rankAsc (base.map Player.adp) p.adp,
    valueScore := rankAsc (base.map Player.adp) p.adp
      - rankDesc (base.map Player.finalAdjGPP) p.finalAdjGPP })

/-- The z-score phase of `process_data` (lines 100-108): columnwise
`zFinal`, `zADP` and `ValueZ = zFinal - zADP`.  The `except` branch that
would assign 0 is dead code: scipy produces NaN columns on zero variance
instead of raising. -/
def add_zscores (ranked : List Player) : List Player :=
  (ranked.zip ((zscoreFloat (ranked.map Player.finalAdjGPP)).zip
      (zscoreFloat (ranked.map (fun p => -p.adp))))).map (fun pz =>
    { pz.1 with zFinal := pz.2.1, zADP := pz.2.2, valueZ := subNaN pz.2.1 pz.2.2 })

/-- The value-alert phase of `process_data` (line 111):
`ValueScore >= 12 or ValueZ >= 0.75`, where a NaN comparison is false. -/
def add_value_alert (l : List Player) : List Player :=
  l.map (fun p => { p with
    valueAlert := decide ((12 : ℤ) ≤ p.valueScore) || geNaN (3/4) p.valueZ })

/-- `process_data` (lines 51-113): the four phases in source order. -/
def process_data (df : List RawRow) : List Player :=
  add_value_alert (add_zscores (add_ranks (clean_rows df)))

/-- `calculate_live_score` (lines 115-118): overwrite the `LiveScore`
column with `FinalAdjGPP * emphasis`, touching nothing else. -/
def calculate_live_score (df : List Player) (emphasis : ℚ) : List Player :=
  df.map (fun p => { p with liveScore := p.finalAdjGPP * emphasis })

/-- `calculate_stack_score` (lines 120-155): 0 on an empty roster;
otherwise a team-count bonus (6 at exactly one same-team roster player,
10 at exactly two, nothing at zero or at three and more — the elif chain
falls through) plus +3 when `TeamRank <= 10`, +4 when `FinalsGames == 4`
and +2 when `FinalsMult >= 1.04`.  The try/except wrappers around the
three bonuses never fire on the typed numeric fields produced by
`process_data`. -/
def calculate_stack_score (player_row : Player) (my_roster : List Player) : ℤ :=
  if my_roster.isEmpty then 0
  else
    let team_count := (my_roster.filter (fun p => p.team = player_row.team)).length
    (if team_count = 1 then 6 else if team_count = 2 then 10 else 0)
    + (if player_row.teamRank ≤ 10 then 3 else 0)
    + (if player_row.finalsGames = 4 then 4 else 0)
    + (if (104/100 : ℚ) ≤ player_row.finalsMult then 2 else 0)

/-- `calculate_equity` (lines 157-170): (0, 0) on an empty roster,
otherwise the two linear sums over the roster rows. -/
def calculate_equity (roster_df : List Player) : ℚ × ℚ :=
  if roster_df.isEmpty then (0, 0)
  else
    ((roster_df.map (fun p => p.r2Games * p.r2Mult * 1
        + p.r3Games * p.r3Mult * (135/100))).sum,
     (roster_df.map (fun p => p.finalsGames * p.finalsMult * (175/100))).sum)

/-- The signal produced when `draft`/`mark_drafted` is attempted on an id
that is not available.  In the source the guard is structural: the
dropdown of lines 472-481 is built from
`display_df[~display_df['ID'].isin(st.session_state.drafted_players)]`,
so the attempt is refused with no state change. -/
inductive DraftError where
  | invalidTransition
deriving Repr, DecidableEq

/-- The per-session draft state (`st.session_state`, lines 36-49):
`drafted_players` is a Python set of ids, `my_roster` the ordered list of
the user's own picks. -/
@[ext] structure DraftState where
  drafted_players : Finset ℕ
  my_roster : List ℕ
deriving DecidableEq

/-- The empty session state created by `init_session_state`. -/
def initState : DraftState := ⟨∅, []⟩

/-- "Draft to My Team" (lines 484-489): on an available id, add it to
`drafted_players` and append it to `my_roster`; on an already-drafted id
the attempt is rejected (the id is absent from the dropdown) and the
state is unchanged. -/
def draft (s : DraftState) (pid : ℕ) : DraftState × Option DraftError :=
  if pid ∈ s.drafted_players then (s, some .invalidTransition)
  else (⟨insert pid s.drafted_players, s.my_roster ++ [pid]⟩, none)

/-- "Mark as Drafted" (lines 492-496): like `draft` but the id joins only
`drafted_players` (an opponent pick). -/
def mark_drafted (s : DraftState) (pid : ℕ) : DraftState × Option DraftError :=
  if pid ∈ s.drafted_players then (s, some .invalidTransition)
  else (⟨insert pid s.drafted_players, s.my_roster⟩, none)

/-- "Undo Last Pick" (lines 400-404): if the roster is non-empty, pop its
last id and discard it from `drafted_players`; otherwise do nothing. -/
def undo (s : DraftState) : DraftState :=
  match s.my_roster.getLast? with
  | none => s
  | some last_pick => ⟨s.drafted_players.erase last_pick, s.my_roster.dropLast⟩

/-- "Reset Draft" (lines 395-398): clear both containers. -/
def reset (_ : DraftState) : DraftState := initState

/-- States reachable from the empty session by any finite sequence of
draft, mark-drafted, undo and reset actions (rejected draft attempts
leave the state unchanged, so `.1` covers both outcomes). -/
inductive Reachable : DraftState → Prop where
  | init : Reachable initState
  | step_draft {s : DraftState} (pid : ℕ) : Reachable s → Reachable (draft s pid).1
  | step_mark {s : DraftState} (pid : ℕ) : Reachable s → Reachable (mark_drafted s pid).1
  | step_undo {s : DraftState} : Reachable s → Reachable (undo s)
  | step_reset {s : DraftState} : Reachable s → Reachable (reset s)

/-- Auxiliary invariant of every reachable state: the roster has no
duplicates and is contained in the drafted set. -/
theorem reachable_inv {s : DraftState} (h : Reachable s) :
    s.my_roster.Nodup ∧ ∀ pid ∈ s.my_roster, pid ∈ s.drafted_players := by
  induction h with
  | init => simp [initState]
  | @step_draft s pid h ih =>
    rcases ih with ⟨hnd, hsub⟩
    unfold draft
    by_cases hp : pid ∈ s.drafted_players
    · simpa [hp] using ⟨hnd, hsub⟩
    · simp only [hp, if_false]
      refine ⟨?_, ?_⟩
      · have hnr : pid ∉ s.my_roster := fun hmem => hp (hsub pid hmem)
        simp [List.nodup_append, hnd, List.disjoint_singleton, hnr]
      · intro q hq
        rcases List.mem_append.mp hq with hq1 | hq1
        · exact Finset.mem_insert_of_mem (hsub q hq1)
        · simp only [List.mem_singleton] at hq1
          subst hq1
          exact Finset.mem_insert_self _ _
  | @step_mark s pid h ih =>
    rcases ih with ⟨hnd, hsub⟩
    unfold mark_drafted
    by_cases hp : pid ∈ s.drafted_players
    · simpa [hp] using ⟨hnd, hsub⟩
    · simp only [hp, if_false]
      exact ⟨hnd, fun q hq => Finset.mem_insert_of_mem (hsub q hq)⟩
  | @step_undo s h ih =>
    rcases ih with ⟨hnd, hsub⟩
    unfold undo
    cases hl : s.my_roster.getLast? with
    | none => exact ⟨hnd, hsub⟩
    | some last_pick =>
      have hrepr : s.my_roster.dropLast ++ [last_pick] = s.my_roster :=
        List.dropLast_append_getLast? last_pick hl
      refine ⟨(List.dropLast_sublist _).nodup hnd, ?_⟩
      intro q hq
      have hqd : q ∈ s.drafted_players := hsub q (List.mem_of_mem_dropLast hq)
      have hnd2 : (s.my_roster.dropLast ++ [last_pick]).Nodup := by
        rw [hrepr]; exact hnd
      have hdisj := (List.nodup_append.mp hnd2).2.2
      have hqne : q ≠ last_pick := by
        intro he
        exact hdisj hq (by simp [he])
      exact Finset.mem_erase.mpr ⟨hqne, hqd⟩
  | step_reset h ih => simp [reset, initState]

/-- C2: after every finite sequence of draft, mark-drafted, undo and
reset operations starting from the empty session state, every id on the
roster list is also a member of the drafted set. -/
theorem roster_subset_drafted {s : DraftState} (h : Reachable s) :
    ∀ pid ∈ s.my_roster, pid ∈ s.drafted_players :=
  (reachable_inv h).2

/-- Witness for C2 at the state reached by drafting id 0 from the empty
session. -/
theorem roster_subset_drafted_witness :
    0 ∈ ((draft initState 0).1).drafted_players :=
  roster_subset_drafted (Reachable.step_draft 0 Reachable.init) 0
    (by simp [draft, initState])

/-- C3: undo on a state with an empty roster is a no-op, and undo applied
right after drafting an available player returns exactly the previous
state — the pick leaves both the roster and the drafted set. -/
theorem undo_spec (s : DraftState) (x : ℕ) (hx : x ∉ s.drafted_players) :
    (s.my_roster = [] → undo s = s) ∧ undo (draft s x).1 = s := by
  obtain ⟨d, r⟩ := s
  constructor
  · intro h0
    simp only at h0
    simp [undo, h0]
  · have hd : (draft ⟨d, r⟩ x).1 = ⟨insert x d, r ++ [x]⟩ := by
      simp [draft, hx]
    rw [hd]
    unfold undo
    simp [List.getLast?_concat, List.dropLast_concat, Finset.erase_insert hx]

/-- Witness for C3 at the empty session and player id 0. -/
theorem undo_spec_witness :
    (initState.my_roster = [] → undo initState = initState)
    ∧ undo (draft initState 0).1 = initState :=
  undo_spec initState 0 (by simp [initState])

/-- C4: a draft or mark-drafted attempt on an id already in the drafted
set is rejected with the invalid-transition signal and leaves the draft
state unchanged, so the pick is never double-counted. -/
theorem invalid_draft_rejected (s : DraftState) (pid : ℕ)
    (h : pid ∈ s.drafted_players) :
    draft s pid = (s, some DraftError.invalidTransition)
    ∧ mark_drafted s pid = (s, some DraftError.invalidTransition) := by
  simp [draft, mark_drafted, h]

/-- Witness for C4: drafting id 0 twice from the empty session. -/
theorem invalid_draft_rejected_witness :
    draft (draft initState 0).1 0
        = ((draft initState 0).1, some DraftError.invalidTransition)
    ∧ mark_drafted (draft initState 0).1 0
        = ((draft initState 0).1, some DraftError.invalidTransition) :=
  invalid_draft_rejected _ 0 (by simp [draft, initState])

/-- Projection of a processed row with its live score zeroed out: two
rows agree under this map exactly when they differ at most in
`liveScore`. -/
def droppedLiveScore (p : Player) : Player := { p with liveScore := 0 }

/-- C5: `calculate_live_score` sets every row's live score to exactly
`final_adj_gpp * emphasis`; recomputing after an emphasis change scales
every live score by exactly that factor; and no field other than
`liveScore` — in particular none of the derived metric fields — changes. -/
theorem live_score_spec (df : List Player) (e : ℚ) :
    (calculate_live_score df e).map Player.liveScore
        = df.map (fun p => p.finalAdjGPP * e)
    ∧ (calculate_live_score (calculate_live_score df 1) e).map Player.liveScore
        = (calculate_live_score df 1).map (fun p => e * p.liveScore)
    ∧ (calculate_live_score df e).map droppedLiveScore = df.map droppedLiveScore := by
  refine ⟨?_, ?_, ?_⟩
  · simp [calculate_live_score, List.map_map, Function.comp]
  · simp [calculate_live_score, List.map_map, Function.comp, mul_comm]
  · simp [calculate_live_score, droppedLiveScore, List.map_map, Function.comp]

/-- The specific roster player of the spec's equity test: r2_games=2,
r2_mult=1.1, r3_games=1, r3_mult=1.0, finals_games=0 (other fields at
their defaults, which the equity sums do not read). -/
def equityExample : Player :=
  { r2Games := 2, r2Mult := 11/10, r3Games := 1, r3Mult := 1, finalsGames := 0 }

/-- A raw row carrying only Name/Position/Team and a positive
FinalAdjGPP: every numeric column is missing, exercising the default
coercions of `process_data` lines 67-86. -/
def defaultsRow : RawRow :=
  { name := some "D", position := some "G", team := some "T", finalAdjGPP := some 50 }

/-- The row `defaultsRow` after the cleaning phase: every numeric column
got its default, the all-missing ADP column was filled with 999 + 100. -/
def defaultsCleaned : Player :=
  { id := 0, name := "D", position := "G", team := "T", adp := 1099, finalAdjGPP := 50 }

/-- `defaultsCleaned` after the ranking phase (a single row ranks 1/1). -/
def defaultsRanked : Player :=
  { defaultsCleaned with finalRank := 1, adpRank := 1, valueScore := 0 }

/-- `defaultsRanked` after the z-score phase: a single row has zero
variance in both columns, so every z-value is NaN. -/
def defaultsWithZ : Player :=
  { defaultsRanked with zFinal := none, zADP := none, valueZ := none }

/-- C9: the equity aggregation is (0,0) on the empty roster, decomposes
player by player into the two documented linear sums, the spec's example
player contributes exactly 3.55 = 71/20 to the advance equity, and a row
whose numeric fields were all missing is aggregated at the column
defaults (r2/r3/finals games 3, multipliers 1), never faulting. -/
theorem equity_spec :
    calculate_equity [] = (0, 0)
    ∧ (∀ (p : Player) (roster : List Player),
        calculate_equity (p :: roster)
          = (p.r2Games * p.r2Mult * 1 + p.r3Games * p.r3Mult * (135/100)
               + (calculate_equity roster).1,
             p.finalsGames * p.finalsMult * (175/100) + (calculate_equity roster).2))
    ∧ (∀ roster : List Player,
        (calculate_equity (equityExample :: roster)).1
          = 71/20 + (calculate_equity roster).1)
    ∧ calculate_equity (process_data [defaultsRow]) = (141/20, 21/4) := by
  have h2 : ∀ (p : Player) (roster : List Player),
      calculate_equity (p :: roster)
        = (p.r2Games * p.r2Mult * 1 + p.r3Games * p.r3Mult * (135/100)
             + (calculate_equity roster).1,
           p.finalsGames * p.finalsMult * (175/100) + (calculate_equity roster).2) := by
    intro p roster
    cases roster with
    | nil => simp [calculate_equity]
    | cons q rs =>
      simp only [calculate_equity, List.isEmpty_cons, if_false, Bool.false_eq_true,
        List.map_cons, List.sum_cons]
  refine ⟨by simp [calculate_equity], h2, ?_, ?_⟩
  · intro roster
    have h := congrArg Prod.fst (h2 equityExample roster)
    simp only at h
    rw [h, equityExample]
    norm_num
  · have hc : clean_rows [defaultsRow] = [defaultsCleaned] := by
      norm_num [clean_rows, adp_fill_value, mk_player, defaultsRow, defaultsCleaned,
        List.range_succ, List.range_zero, List.filterMap_cons]
    have hr : add_ranks [defaultsCleaned] = [defaultsRanked] := by
      norm_num [add_ranks, rankDesc, rankAsc, defaultsCleaned, defaultsRanked, List.filter]
    have hz : add_zscores [defaultsRanked] = [defaultsWithZ] := by
      norm_num [add_zscores, zscoreFloat, popVar, popMean, subNaN,
        defaultsRanked, defaultsWithZ]
    have ha : add_value_alert [defaultsWithZ] = [defaultsWithZ] := by
      norm_num [add_value_alert, geNaN, defaultsWithZ, defaultsRanked, defaultsCleaned]
    rw [process_data, hc, hr, hz, ha]
    norm_num [calculate_equity, defaultsWithZ, defaultsRanked, defaultsCleaned]

/-- Normal form of `calculate_stack_score` on a non-empty roster: the
team-count bonus plus the three player-quality bonuses. -/
theorem stack_score_of_ne_nil (p : Player) (l : List Player) (h : l ≠ []) :
    calculate_stack_score p l =
      (if (l.filter (fun q => q.team = p.team)).length = 1 then 6
       else if (l.filter (fun q => q.team = p.team)).length = 2 then 10 else 0)
      + ((if p.teamRank ≤ 10 then 3 else 0) + (if p.finalsGames = 4 then 4 else 0)
         + (if (104/100 : ℚ) ≤ p.finalsMult then 2 else 0)) := by
  cases l with
  | nil => exact absurd rfl h
  | cons a t =>
    simp only [calculate_stack_score, List.isEmpty_cons, Bool.false_eq_true, if_false]
    ring

/-- A same-team roster filler for the stack-score fixtures (quality
bonuses of the candidate are all off at the field defaults). -/
def mate (i : ℕ) : Player := { id := i, name := "M", position := "G", team := "T" }

/-- The candidate pick for the stack-score fixtures, same team "T". -/
def stackCand : Player := { name := "X", position := "G", team := "T" }

/-- C6 counterexample: with exactly two same-team roster players the
stack score is 10, but adding a third same-team player drops it to 0 —
the score is not monotone in the third addition and the cap does not
stay at the two-teammate bonus. -/
theorem stack_third_teammate_counterexample :
    calculate_stack_score stackCand [mate 1, mate 2] = 10
    ∧ calculate_stack_score stackCand [mate 1, mate 2, mate 3] = 0
    ∧ calculate_stack_score stackCand [mate 1, mate 2, mate 3]
        < calculate_stack_score stackCand [mate 1, mate 2] := by
  norm_num [calculate_stack_score, mate, stackCand, List.filter]

/-- C6 corrected: the stack score is 0 on an empty roster; on a non-empty
roster it is the team-count bonus (6 at exactly one same-team roster
player, 10 at exactly two, 0 otherwise) plus the three quality bonuses;
adding a same-team player to a roster holding at most one same-team
player never decreases the score (0 to 6, 6 to 10), but adding one to a
roster already holding exactly two same-team players removes the
team-count bonus entirely: the score drops by 10 instead of staying at
the cap. -/
theorem stack_score_amended (p w : Player) (roster : List Player)
    (hw : w.team = p.team) :
    calculate_stack_score p [] = 0
    ∧ ((roster.filter (fun q => q.team = p.team)).length ≤ 1 →
        calculate_stack_score p roster ≤ calculate_stack_score p (w :: roster))
    ∧ ((roster.filter (fun q => q.team = p.team)).length = 2 →
        calculate_stack_score p (w :: roster) = calculate_stack_score p roster - 10) := by
  have h3 : (0 : ℤ) ≤ if p.teamRank ≤ 10 then 3 else 0 := by split <;> norm_num
  have h4 : (0 : ℤ) ≤ if p.finalsGames = 4 then 4 else 0 := by split <;> norm_num
  have h5 : (0 : ℤ) ≤ if (104/100 : ℚ) ≤ p.finalsMult then 2 else 0 := by
    split <;> norm_num
  have hflen : ((w :: roster).filter (fun q => q.team = p.team)).length
      = (roster.filter (fun q => q.team = p.team)).length + 1 := by
    simp [List.filter_cons, hw]
  refine ⟨by simp [calculate_stack_score], ?_, ?_⟩
  · intro htc
    rw [stack_score_of_ne_nil p (w :: roster) (by simp), hflen]
    cases roster with
    | nil =>
      simp only [calculate_stack_score, List.isEmpty_nil, if_true,
        List.filter_nil, List.length_nil]
      norm_num
      omega
    | cons a rs =>
      rw [stack_score_of_ne_nil p (a :: rs) (by simp)]
      rcases Nat.le_one_iff_eq_zero_or_eq_one.mp htc with h0 | h1
      · rw [h0]; norm_num
      · rw [h1]; norm_num
  · intro htc2
    have hrne : roster ≠ [] := by
      intro h0
      rw [h0] at htc2
      simp at htc2
    rw [stack_score_of_ne_nil p (w :: roster) (by simp),
      stack_score_of_ne_nil p roster hrne, hflen, htc2]
    norm_num

/-- Witness for C6: the empty-roster value and the drop at the third
same-team player, at the concrete fixtures. -/
theorem stack_score_amended_witness :
    calculate_stack_score stackCand [] = 0
    ∧ calculate_stack_score stackCand (mate 3 :: [mate 1, mate 2])
        = calculate_stack_score stackCand [mate 1, mate 2] - 10 := by
  have h := stack_score_amended stackCand (mate 3) [mate 1, mate 2] rfl
  exact ⟨h.1, h.2.2 (by norm_num [mate, stackCand, List.filter])⟩

/-- C8 counterexample: on a column whose every ADP value is missing, the
code sets `max_adp = 999` and then fills with `max_adp + 100`, so the
substituted value is 1099, not the 999 the claim states. -/
theorem fill_adp_all_missing_counterexample :
    fill_missing_adp [none] = [1099] ∧ fill_missing_adp [none] ≠ [999] := by
  norm_num [fill_missing_adp, adp_fill_value, List.max?]

/-- C8 corrected: every missing ADP value is replaced by
max(observed ADP) + 100; when every ADP value is missing the max
defaults to 999, so the substituted value is 999 + 100 = 1099 for every
row (not 999). -/
theorem fill_missing_adp_amended (adps : List (Option ℚ)) :
    ((∀ a ∈ adps, a = none) →
        fill_missing_adp adps = adps.map (fun _ => (1099 : ℚ)))
    ∧ (∀ m : ℚ, (adps.filterMap id).max? = some m →
        fill_missing_adp adps = adps.map (fun a => a.getD (m + 100))) := by
  constructor
  · intro h
    have hnil : adps.filterMap id = [] := by
      rw [List.filterMap_eq_nil_iff]
      intro a ha
      rw [h a ha]
      rfl
    unfold fill_missing_adp adp_fill_value
    rw [hnil]
    apply List.map_congr_left
    intro a ha
    rw [h a ha]
    norm_num
  · intro m hm
    unfold fill_missing_adp adp_fill_value
    rw [hm]
    rfl

/-- Witness for C8 at an all-missing column and at a column with one
observed value 5. -/
theorem fill_missing_adp_amended_witness :
    fill_missing_adp [none] = [1099] ∧ fill_missing_adp [none, some 5] = [105, 5] := by
  constructor
  · have h := (fill_missing_adp_amended [none]).1 (by simp)
    simpa using h
  · have h := (fill_missing_adp_amended [none, some 5]).2 5 (by rfl)
    rw [h]
    norm_num

/-- The three-player catalog of the spec's end-to-end scenario:
A(final=100, adp=5), B(final=90, adp=1), C(final=90, adp=2). -/
def catalogABC : List RawRow :=
  [{ name := some "A", position := some "F", team := some "TA",
     adp := some 5, finalAdjGPP := some 100 },
   { name := some "B", position := some "F", team := some "TB",
     adp := some 1, finalAdjGPP := some 90 },
   { name := some "C", position := some "F", team := some "TC",
     adp := some 2, finalAdjGPP := some 90 }]

/-- Row A of `catalogABC` after the cleaning phase. -/
def cleanedA : Player :=
  { id := 0, name := "A", position := "F", team := "TA", adp := 5, finalAdjGPP := 100 }

/-- Row B of `catalogABC` after the cleaning phase. -/
def cleanedB : Player :=
  { id := 1, name := "B", position := "F", team := "TB", adp := 1, finalAdjGPP := 90 }

/-- Row C of `catalogABC` after the cleaning phase. -/
def cleanedC : Player :=
  { id := 2, name := "C", position := "F", team := "TC", adp := 2, finalAdjGPP := 90 }

/-- Row A of `catalogABC` after the ranking phase. -/
def rankedA : Player := { cleanedA with finalRank := 1, adpRank := 3, valueScore := 2 }

/-- Row B of `catalogABC` after the ranking phase. -/
def rankedB : Player := { cleanedB with finalRank := 2, adpRank := 1, valueScore := -1 }

/-- Row C of `catalogABC` after the ranking phase. -/
def rankedC : Player := { cleanedC with finalRank := 2, adpRank := 2, valueScore := 0 }

/-- C1: on the catalog A(final=100, adp=5), B(final=90, adp=1),
C(final=90, adp=2), `process_data` yields final ranks 1, 2, 2
(descending, MIN tie semantics), adp ranks 3, 1, 2 (ascending) and value
scores 2, -1, 0 — equal to adp_rank - final_rank — for every row. -/
theorem ranks_value_scenario :
    (process_data catalogABC).map (fun p => (p.name, p.finalRank, p.adpRank, p.valueScore))
      = [("A", 1, 3, 2), ("B", 2, 1, -1), ("C", 2, 2, 0)] := by
  have hc : clean_rows catalogABC = [cleanedA, cleanedB, cleanedC] := by
    norm_num [clean_rows, adp_fill_value, mk_player, catalogABC,
      cleanedA, cleanedB, cleanedC, List.range_succ, List.range_zero,
      List.filterMap_cons, List.max?, max_def]
  have hr : add_ranks [cleanedA, cleanedB, cleanedC] = [rankedA, rankedB, rankedC] := by
    norm_num [add_ranks, rankDesc, rankAsc, cleanedA, cleanedB, cleanedC,
      rankedA, rankedB, rankedC, List.filter]
  rw [process_data, hc, hr]
  norm_num [add_zscores, add_value_alert, zscoreFloat, popVar, popMean,
    subNaN, geNaN, rankedA, rankedB, rankedC, cleanedA, cleanedB, cleanedC,
    List.zip_cons_cons]

/-- A two-player catalog whose `FinalAdjGPP` column has zero population
variance (both 50) while the ADP column does not. -/
def catalogConstGPP : List RawRow :=
  [{ name := some "A", position := some "G", team := some "TA",
     adp := some 1, finalAdjGPP := some 50 },
   { name := some "B", position := some "F", team := some "TB",
     adp := some 2, finalAdjGPP := some 50 }]

/-- Row A of `catalogConstGPP` after the cleaning phase. -/
def constGPPCleanedA : Player :=
  { id := 0, name := "A", position := "G", team := "TA", adp := 1, finalAdjGPP := 50 }

/-- Row B of `catalogConstGPP` after the cleaning phase. -/
def constGPPCleanedB : Player :=
  { id := 1, name := "B", position := "F", team := "TB", adp := 2, finalAdjGPP := 50 }

/-- Row A of `catalogConstGPP` after the ranking phase. -/
def constGPPRankedA : Player :=
  { constGPPCleanedA with finalRank := 1, adpRank := 1, valueScore := 0 }

/-- Row B of `catalogConstGPP` after the ranking phase. -/
def constGPPRankedB : Player :=
  { constGPPCleanedB with finalRank := 1, adpRank := 2, valueScore := 1 }

/-- C7, code bug: on a catalog whose `FinalAdjGPP` column has zero
population variance, `scipy.stats.zscore` returns NaN for every entry
(0/0 emits a warning, it does not raise), so the except fallback that
would assign 0 never runs and `ValueZ` is NaN — not the neutral 0 the
claim states — for every row. -/
theorem value_z_nan_on_zero_variance :
    (process_data catalogConstGPP).map Player.valueZ = [none, none]
    ∧ (process_data catalogConstGPP).map Player.valueZ
        ≠ [some (0 : ℚ), some (0 : ℚ)] := by
  have hc : clean_rows catalogConstGPP = [constGPPCleanedA, constGPPCleanedB] := by
    norm_num [clean_rows, adp_fill_value, mk_player, catalogConstGPP,
      constGPPCleanedA, constGPPCleanedB,
      List.range_succ, List.range_zero, List.filterMap_cons, List.max?, max_def]
  have hr : add_ranks [constGPPCleanedA, constGPPCleanedB]
      = [constGPPRankedA, constGPPRankedB] := by
    norm_num [add_ranks, rankDesc, rankAsc, constGPPCleanedA, constGPPCleanedB,
      constGPPRankedA, constGPPRankedB, List.filter]
  have hfinal : (process_data catalogConstGPP).map Player.valueZ = [none, none] := by
    rw [process_data, hc, hr]
    norm_num [add_zscores, add_value_alert, zscoreFloat, popVar, popMean,
      subNaN, geNaN, constGPPRankedA, constGPPRankedB,
      constGPPCleanedA, constGPPCleanedB, List.zip_cons_cons]
  refine ⟨hfinal, ?_⟩
  rw [hfinal]
  simp

/-- A kept row of the cleaning phase carries the id it was zipped with:
`mk_player` copies the position index into the `id` field. -/
theorem mk_player_id (m : ℚ) (ir : ℕ × RawRow) (p : Player)
    (h : mk_player m ir = some p) : p.id = ir.1 := by
  unfold mk_player at h
  cases h1 : ir.2.name with
  | none => rw [h1] at h; exact absurd h (by simp)
  | some nm =>
    cases h2 : ir.2.position with
    | none => rw [h1, h2] at h; exact absurd h (by simp)
    | some ps =>
      cases h3 : ir.2.team with
      | none => rw [h1, h2, h3] at h; exact absurd h (by simp)
      | some tm =>
        rw [h1, h2, h3] at h
        simp only at h
        split at h
        · cases h
          rfl
        · exact absurd h (by simp)

/-- `zscoreFloat` preserves the column length. -/
theorem zscoreFloat_length (xs : List ℚ) : (zscoreFloat xs).length = xs.length := by
  unfold zscoreFloat
  split <;> simp

/-- Mapping an id-preserving row update over a frame preserves the id
column. -/
theorem map_player_id_congr {f : Player → Player} (hf : ∀ p, (f p).id = p.id)
    (l : List Player) : (l.map f).map Player.id = l.map Player.id := by
  induction l with
  | nil => rfl
  | cons a t ih => simp [hf, ih]

/-- The zipped z-score update of `add_zscores` preserves the id column
whenever the z columns are at least as long as the frame. -/
theorem zip_update_ids (l : List Player) (z : List (Option ℚ × Option ℚ))
    (h : l.length ≤ z.length) :
    ((l.zip z).map (fun pz => { pz.1 with
        zFinal := pz.2.1, zADP := pz.2.2,
        valueZ := subNaN pz.2.1 pz.2.2 })).map Player.id = l.map Player.id := by
  induction l generalizing z with
  | nil => rfl
  | cons a t ih =>
    cases z with
    | nil => simp at h
    | cons b bs =>
      simp only [List.zip_cons_cons, List.map_cons]
      rw [ih bs (by simpa using h)]

/-- The ranking phase preserves the id column. -/
theorem add_ranks_ids (l : List Player) :
    (add_ranks l).map Player.id = l.map Player.id := by
  unfold add_ranks
  apply map_player_id_congr
  intro p
  rfl

/-- The z-score phase preserves the id column. -/
theorem add_zscores_ids (l : List Player) :
    (add_zscores l).map Player.id = l.map Player.id := by
  unfold add_zscores
  apply zip_update_ids
  simp [List.length_zip, zscoreFloat_length]

/-- The value-alert phase preserves the id column. -/
theorem add_value_alert_ids (l : List Player) :
    (add_value_alert l).map Player.id = l.map Player.id := by
  unfold add_value_alert
  apply map_player_id_congr
  intro p
  rfl

/-- The id column of the whole pipeline is the id column of the cleaned
frame. -/
theorem process_data_ids (df : List RawRow) :
    (process_data df).map Player.id = (clean_rows df).map Player.id := by
  unfold process_data
  rw [add_value_alert_ids, add_zscores_ids, add_ranks_ids]

/-- The ids kept by a filtered zip are a sublist of the zipped indices. -/
theorem filterMap_ids_sublist (m : ℚ) (l : List (ℕ × RawRow)) :
    ((l.filterMap (mk_player m)).map Player.id).Sublist (l.map Prod.fst) := by
  induction l with
  | nil => simp
  | cons a t ih =>
    cases hma : mk_player m a with
    | none =>
      rw [List.filterMap_cons, hma]
      exact ih.trans (List.sublist_cons_self _ _)
    | some p =>
      rw [List.filterMap_cons, hma]
      simp only [List.map_cons]
      rw [mk_player_id m a p hma]
      exact ih.cons₂ _

/-- The id column of the cleaned frame is a sublist of `range n`. -/
theorem clean_rows_ids_sublist (df : List RawRow) :
    ((clean_rows df).map Player.id).Sublist (List.range df.length) := by
  unfold clean_rows
  have h := filterMap_ids_sublist (adp_fill_value (df.map RawRow.adp))
    ((List.range df.length).zip df)
  rwa [List.map_fst_zip _ _ (by simp)] at h

/-- When every row is admitted, the cleaning phase keeps every row and
the id column is exactly `range n`. -/
theorem clean_rows_ids_all (df : List RawRow) (h : ∀ r ∈ df, admitted r) :
    (clean_rows df).map Player.id = List.range df.length := by
  unfold clean_rows
  have key : ∀ l : List (ℕ × RawRow), (∀ ir ∈ l, admitted ir.2) →
      ((l.filterMap (mk_player (adp_fill_value (df.map RawRow.adp)))).map Player.id)
        = l.map Prod.fst := by
    intro l hl
    induction l with
    | nil => rfl
    | cons a t ih =>
      obtain ⟨hn, hp, ht, hg⟩ := hl a (by simp)
      obtain ⟨nm, hnm⟩ := Option.isSome_iff_exists.mp hn
      obtain ⟨ps, hps⟩ := Option.isSome_iff_exists.mp hp
      obtain ⟨tm, htm⟩ := Option.isSome_iff_exists.mp ht
      have hq : (mk_player (adp_fill_value (df.map RawRow.adp)) a).isSome := by
        simp only [mk_player, hnm, hps, htm]
        simp [hg]
      obtain ⟨q, hq2⟩ := Option.isSome_iff_exists.mp hq
      rw [List.filterMap_cons, hq2, List.map_cons, List.map_cons,
        mk_player_id _ a q hq2]
      rw [ih (fun ir hir => hl ir (by simp [hir]))]
  rw [key ((List.range df.length).zip df)
    (fun ir hir => h ir.2 (List.of_mem_zip hir).2)]
  exact List.map_fst_zip _ _ (by simp)

/-- A catalog whose middle row is missing its name and is therefore
dropped by the cleaning phase after ids were assigned. -/
def catalogGap : List RawRow :=
  [{ name := some "A", position := some "G", team := some "TA",
     adp := some 1, finalAdjGPP := some 50 },
   { name := none, position := some "G", team := some "TB",
     adp := some 2, finalAdjGPP := some 60 },
   { name := some "C", position := some "G", team := some "TC",
     adp := some 3, finalAdjGPP := some 70 }]

/-- C10 counterexample: ids are assigned before rows are dropped
(line 58 runs before lines 88-93), so dropping the middle row of
`catalogGap` leaves ids 0 and 2 — not the consecutive 0, 1 the claim
requires of the two retained rows. -/
theorem ids_gap_counterexample :
    (process_data catalogGap).map Player.id = [0, 2]
    ∧ (process_data catalogGap).map Player.id
        ≠ List.range ((process_data catalogGap).length) := by
  have hids : (process_data catalogGap).map Player.id = [0, 2] := by
    rw [process_data_ids]
    norm_num [clean_rows, adp_fill_value, mk_player, catalogGap,
      List.range_succ, List.range_zero, List.filterMap_cons, List.max?, max_def]
  refine ⟨hids, ?_⟩
  have hlen : (process_data catalogGap).length = 2 := by
    have := congrArg List.length hids
    simpa using this
  rw [hids, hlen]
  simp [List.range_succ]

/-- C10 corrected: after cleaning, the id column of the catalog is
strictly increasing (hence unique and gap-free only up to the dropped
rows); it is the dense sequence 0, 1, ..., n-1 exactly when every loaded
row passes admission, while dropped rows leave gaps. -/
theorem ids_strictly_increasing (df : List RawRow) :
    ((process_data df).map Player.id).Pairwise (· < ·)
    ∧ ((∀ r ∈ df, admitted r) →
        (process_data df).map Player.id = List.range df.length) := by
  constructor
  · rw [process_data_ids]
    exact List.Pairwise.sublist (clean_rows_ids_sublist df) (List.sorted_lt_range df.length)
  · intro h
    rw [process_data_ids]
    exact clean_rows_ids_all df h

/-- Witness for C10 at the fully admitted three-player catalog. -/
theorem ids_strictly_increasing_witness :
    ((process_data catalogABC).map Player.id).Pairwise (· < ·)
    ∧ (process_data catalogABC).map Player.id = List.range catalogABC.length :=
  ⟨(ids_strictly_increasing catalogABC).1,
   (ids_strictly_increasing catalogABC).2 (by
      intro r hr
      simp only [catalogABC, List.mem_cons, List.not_mem_nil, or_false] at hr
      rcases hr with h | h | h <;> subst h <;> constructor <;> norm_num [admitted])⟩

end DraftAssistant

